/-
Verification of the configuration model and parameter-name resolution of
`parameters.py` (atomic-parameters).  The Python source is shallowly embedded:
pure functions become Lean functions, fallible code returns `Except PyErr`,
Python `int` is modelled by `Nat`/`Int`, and the opaque floating-point
parameter values coming from the external toolchain are modelled as abstract
integer tokens (the code only selects them by position, never computes with
them).  The ASCII fragment of Python's `\d`/`\w` character classes is
modelled; all configuration strings handled by the program are ASCII.
-/
import Mathlib

set_option linter.unusedVariables false
set_option linter.unreachableTactic false
set_option linter.unusedTactic false

deriving instance DecidableEq for Except

/-- Python exception kinds raised by the embedded code. -/
inductive PyErr where
  | valueError (msg : String)
  | keyError
  | indexError
  | assertionError
deriving DecidableEq, Repr

/-- ASCII fragment of Python's regex class `\w` (word character). -/
def isWordChar (c : Char) : Bool := c.isAlphanum || c = '_'

/-- Python `int` applied to a nonempty string of ASCII digits. -/
def digitsToNat (l : List Char) : Nat := l.foldl (fun a c => 10 * a + (c.toNat - 48)) 0

/-- Execution of the anchored regex `^(\d)(\w)(\d+)$` (`PATTERNS[1]` of
`Configuration.name`): first char a digit, second a word character, the
nonempty remainder all digits.  Returns the three captured groups. -/
def matchSingle : List Char → Option (Char × Char × List Char)
  | d :: w :: r =>
    if d.isDigit && isWordChar w && !r.isEmpty && r.all Char.isDigit then
      some (d, w, r)
    else none
  | _ => none

/-- Execution of the anchored regex `^(\d)(\w)(\d+),(\d)(\w)(\d+)$`
(`PATTERNS[0]` of `Configuration.name`).  The first `\d+` is the maximal
digit run after the first two characters, which must be followed by the
comma; the part after the comma must match `(\d)(\w)(\d+)$`. -/
def matchDouble : List Char → Option ((Char × Char × List Char) × (Char × Char × List Char))
  | d1 :: w1 :: rest =>
    match rest.dropWhile Char.isDigit with
    | c :: tail =>
      if c = ',' then
        if d1.isDigit && isWordChar w1 && !(rest.takeWhile Char.isDigit).isEmpty then
          match matchSingle tail with
          | some t2 => some ((d1, w1, rest.takeWhile Char.isDigit), t2)
          | none => none
        else none
      else none
    | [] => none
  | _ => none

/-- Python's end anchor `$` (without `re.MULTILINE`) also matches just before
a single trailing newline; this wrapper reproduces that for a whole-string
match. -/
def pyFullMatch {α : Type} (body : List Char → Option α) (l : List Char) : Option α :=
  match body l with
  | some x => some x
  | none => if l.getLast? = some '\n' then body l.dropLast else none

/-- `Configuration.OCCUPANCIES`: capacity of each shell letter; other
letters are absent from the dict (lookup raises `KeyError`). -/
def OCCUPANCIES (sh : Char) : Option Nat :=
  if sh = 's' then some 2
  else if sh = 'p' then some 6
  else if sh = 'd' then some 10
  else if sh = 'f' then some 14
  else none

/-- The state built by the `Configuration.name` setter: the verbatim input
string plus the derived `levels`, `shells`, `occupancies` and `subshells`. -/
structure Configuration where
  name : String
  levels : List Nat
  shells : List Char
  occupancies : List Nat
  subshells : List String
deriving DecidableEq, Repr

/-- The `Configuration.name` setter: try the two patterns (core pattern
first), destructure `[tokens] = tokens`, convert the captured groups,
range-check the valence occupancy then (if present) the core occupancy, and
derive the `levels`/`shells`/`occupancies`/`subshells` fields.  A shell
letter outside the `OCCUPANCIES` dict raises `KeyError`. -/
def parseConfig (value : String) : Except PyErr Configuration :=
  match pyFullMatch matchDouble value.data, pyFullMatch matchSingle value.data with
  | none, none => .error (.valueError "Invalid configuration string.")
  | some _, some _ => .error (.valueError "too many values to unpack")
  | some ((d1, w1, r1), (d2, w2, r2)), none =>
    let vl := digitsToNat [d2]
    let vocc := digitsToNat r2
    match OCCUPANCIES w2 with
    | none => .error .keyError
    | some vcap =>
      if vocc > vcap then .error (.valueError "Wrong number of electrons in the valence shell.")
      else
        let cl := digitsToNat [d1]
        let cocc := digitsToNat r1
        match OCCUPANCIES w1 with
        | none => .error .keyError
        | some ccap =>
          if cocc > ccap then .error (.valueError "Wrong number of electrons in the core shell.")
          else .ok ⟨value, [cl, vl], [w1, w2], [cocc, vocc],
            [Nat.repr cl ++ String.mk [w1], Nat.repr vl ++ String.mk [w2]]⟩
  | none, some (d, w, r) =>
    let vl := digitsToNat [d]
    let vocc := digitsToNat r
    match OCCUPANCIES w with
    | none => .error .keyError
    | some vcap =>
      if vocc > vcap then .error (.valueError "Wrong number of electrons in the valence shell.")
      else .ok ⟨value, [vl], [w], [vocc], [Nat.repr vl ++ String.mk [w]]⟩

/-- `Configuration.is_excited`. -/
def is_excited (c : Configuration) : Bool := c.shells.length == 2

/-- Structural well-formedness of one `(level, shell, occupancy, subshell)`
tuple as produced by a successful parse: single-digit level, shell letter
with a capacity, occupancy within capacity, and the subshell label being
the level concatenated with the shell letter. -/
def validTriple (l : Nat) (sh : Char) (occ : Nat) (ss : String) : Bool :=
  decide (l ≤ 9) &&
    (match OCCUPANCIES sh with
     | some cap => decide (occ ≤ cap)
     | none => false) &&
    (ss == Nat.repr l ++ String.mk [sh])

/-- Structural well-formedness of a `Configuration` (what every value built
by `parseConfig` satisfies): one or two shells, parallel field lists, each
triple well-formed. -/
def validConfig (c : Configuration) : Bool :=
  match c.levels, c.shells, c.occupancies, c.subshells with
  | [l], [sh], [occ], [ss] => validTriple l sh occ ss
  | [l1, l2], [sh1, sh2], [o1, o2], [ss1, ss2] =>
    validTriple l1 sh1 o1 ss1 && validTriple l2 sh2 o2 ss2
  | _, _, _, _ => false

/-- `Element.SUBSHELLS`: subshell name, half-open atomic-number range
(Python `range(a, b + 1)` bounds already merged), core-electron count;
iterated in insertion order. -/
def SUBSHELLS : List (String × (Nat × Nat) × Nat) :=
  [("3d", (21, 31), 18),
   ("4d", (39, 49), 36),
   ("4f", (57, 72), 54),
   ("5d", (72, 81), 68),
   ("5f", (89, 104), 86)]

/-- The `Element` state.  `atomicNumber` stands for the external
periodic-table database lookup `xdb.atomic_number(symbol)` (out of scope
per the spec), supplied here as data. -/
structure Element where
  symbol : String
  atomicNumber : Nat
  charge : Option String
deriving DecidableEq, Repr

/-- `Element.valence_subshell`: first table entry whose atomic-number range
contains the element's atomic number, else `none`. -/
def valence_subshell (e : Element) : Option String :=
  (SUBSHELLS.find? fun entry =>
    decide (entry.2.1.1 ≤ e.atomicNumber ∧ e.atomicNumber < entry.2.1.2)).map (·.1)

/-- Python `int(s)` on an optionally signed ASCII digit string
(`ValueError`, i.e. `none`, otherwise). -/
def pythonInt (s : String) : Option Int :=
  match s.data with
  | '+' :: ds => if !ds.isEmpty && ds.all Char.isDigit then some (digitsToNat ds) else none
  | '-' :: ds => if !ds.isEmpty && ds.all Char.isDigit then some (-(digitsToNat ds : Int)) else none
  | ds => if !ds.isEmpty && ds.all Char.isDigit then some (digitsToNat ds) else none

/-- Core-electron count stored in `SUBSHELLS` for a subshell name. -/
def coreElectronsOf (name : String) : Option Nat :=
  (SUBSHELLS.find? fun entry => entry.1 == name).map (·.2.2)

/-- `Element.valence_occupancy`: assert the charge is set, reverse the
charge string before converting it to an integer, subtract it from the
atomic number, then subtract the core electrons of the valence subshell
(`KeyError` when the element has no valence subshell). -/
def valence_occupancy (e : Element) : Except PyErr Int :=
  match e.charge with
  | none => .error .assertionError
  | some chargeStr =>
    match pythonInt (String.mk chargeStr.data.reverse) with
    | none => .error (.valueError "invalid literal for int")
    | some charge =>
      let ionElectrons : Int := (e.atomicNumber : Int) - charge
      match valence_subshell e with
      | none => .error .keyError
      | some subshell =>
        match coreElectronsOf subshell with
        | none => .error .keyError
        | some core => .ok (ionElectrons - (core : Int))

/-- Particle/hole classification computed in the key-building loop of the
`Configuration.atomic_parameters` setter, as a function of the shell letter
and the occupancy alone: key `0` for an empty or full shell, key `1` for a
single particle or single hole — except that an `s` shell then gets key
`-1` — and key `-1` otherwise. -/
def particleKey (sh : Char) (occ : Nat) : Except PyErr Int :=
  match OCCUPANCIES sh with
  | none => .error .keyError
  | some maxOcc =>
    .ok (if occ = 0 ∨ occ = maxOcc then 0
      else if occ = 1 ∨ occ = maxOcc - 1 then (if sh = 's' then -1 else 1)
      else -1)

/-- The key list built by the `atomic_parameters` setter: the classification
applied to each `(occupancy, shell)` pair, in order, regardless of core or
valence position. -/
def buildKey (c : Configuration) : Except PyErr (List Int) :=
  (c.occupancies.zip c.shells).mapM fun p => particleKey p.2 p.1

/-- Zero-padding to two digits, Python's `"{:02d}"` for a natural number. -/
def pad2 (n : Nat) : String := if n < 10 then "0" ++ Nat.repr n else Nat.repr n

/-- Python substring containment `pat in s` on char lists. -/
def subStrAux (pat : List Char) : List Char → Bool
  | [] => pat.isEmpty
  | c :: rest => pat.isPrefixOf (c :: rest) || subStrAux pat rest

/-- Python substring containment `pat in s`. -/
def strContains (s pat : String) : Bool := subStrAux pat.data s.data

/-- Python `str.upper()` on the ASCII subshell labels. -/
def strToUpper (s : String) : String := String.mk (s.data.map Char.toUpper)

/-- Python `str.rstrip()`: drop trailing whitespace. -/
def rstrip (s : String) : String := String.mk ((s.data.reverse.dropWhile Char.isWhitespace).reverse)

/-- Loop body of `Cowan.normalize_configuration_name` for one
`(subshell, occupancy)` pair: substitute `"4f14 5d"` for a 5d subshell when
no `"4f"` subshell is listed, else substitute `"3d10 4f"` for a 4f subshell
when the configuration's name does not contain `"3d"`, then render the
upper-cased label, the zero-padded occupancy and a trailing space. -/
def renderPair (c : Configuration) (ss : String) (occ : Nat) : String :=
  let label :=
    if strContains ss "5d" && !(c.subshells.contains "4f") then "4f14 5d"
    else if strContains ss "4f" && !(strContains c.name "3d") then "3d10 4f"
    else ss
  strToUpper label ++ pad2 occ ++ " "

/-- `Cowan.normalize_configuration_name`: accumulate the rendered pairs over
`zip(subshells, occupancies)` and strip the trailing whitespace. -/
def normalize_configuration_name (c : Configuration) : String :=
  rstrip ((c.subshells.zip c.occupancies).foldl (fun acc p => acc ++ renderPair c p.1 p.2) "")

/-- `Configuration.from_subshells_and_occupancies`: join each subshell label
with its occupancy rendered in plain decimal (`"{:s}{:d}"`), comma-separate,
and construct a `Configuration` from the resulting name. -/
def from_subshells_and_occupancies (subshells : List String) (occupancies : List Int) :
    Except PyErr Configuration :=
  parseConfig (String.intercalate ","
    (List.zipWith (fun ss occ => ss ++ Int.repr occ) subshells occupancies))

/-- `Cowan.initial_configuration`: the configuration itself when it is not
excited; otherwise a fresh single-shell configuration on the valence
subshell with the valence occupancy decremented by one and clamped at 0. -/
def initial_configuration (c : Configuration) : Except PyErr Configuration :=
  if is_excited c then
    match c.subshells.get? 1, c.occupancies.get? 1 with
    | some vss, some voccNat =>
      let vocc : Int := (voccNat : Int) - 1
      let vocc := if vocc < 0 then 0 else vocc
      from_subshells_and_occupancies [vss] [vocc]
    | _, _ => .error .indexError
  else .ok c

/-- A piece of a Python format template: literal text or a `{i:d}`
placeholder indexing the `levels` list. -/
inductive FmtPiece where
  | lit (s : String)
  | arg (i : Nat)
deriving DecidableEq, Repr

/-- `template.format(*levels)`: replace each placeholder by the decimal
rendering of the indexed level; an index beyond the list raises
`IndexError`. -/
def fmtTemplate : List FmtPiece → List Nat → Except PyErr String
  | [], _ => .ok ""
  | .lit s :: rest, levels => (fmtTemplate rest levels).map (s ++ ·)
  | .arg i :: rest, levels =>
    match levels.get? i with
    | some l => (fmtTemplate rest levels).map (Nat.repr l ++ ·)
    | none => .error .indexError

/-- Template `"K({i:d}a,{j:d}b)"` for a two-subshell Slater/Coulomb label. -/
def tpl2 (k : String) (i : Nat) (a : String) (j : Nat) (b : String) : List FmtPiece :=
  [.lit (k ++ "("), .arg i, .lit (a ++ ","), .arg j, .lit (b ++ ")")]

/-- Template `"ζ({i:d}a)"` for a spin-orbit label. -/
def tplZ (i : Nat) (a : String) : List FmtPiece :=
  [.lit "ζ(", .arg i, .lit (a ++ ")")]

/-- The `MAPPINGS` dict of the `atomic_parameters` setter, keyed by the
comma-joined shell letters: for each family, the name templates (formatted
with the configuration's levels) and the occupancy-class-keyed tuples of
value indices (`-1` is the "not applicable" sentinel yielding `0.0`). -/
def MAPPINGS : List (String × List (List FmtPiece) × List (List Int × List Int)) :=
  [("d",
    ([tpl2 "U" 0 "d" 0 "d", tpl2 "F2" 0 "d" 0 "d", tpl2 "F4" 0 "d" 0 "d", tplZ 0 "d"],
     [([0], [-1, -1, -1, -1]),
      ([1], [-1, -1, -1, 0]),
      ([-1], [-1, 0, 1, 2])])),
   ("s,d",
    ([tpl2 "U" 1 "d" 1 "d", tpl2 "F2" 1 "d" 1 "d", tpl2 "F4" 1 "d" 1 "d",
      tpl2 "U" 0 "s" 1 "d", tpl2 "G2" 0 "s" 1 "d", tplZ 1 "d"],
     [([0, 0], [-1, -1, -1, -1, -1, -1]),
      ([0, 1], [-1, -1, -1, -1, -1, 0]),
      ([0, -1], [-1, 0, 1, -1, -1, 2]),
      ([-1, 0], [-1, -1, -1, -1, -1, -1]),
      ([-1, 1], [-1, -1, -1, -1, 1, 0]),
      ([-1, -1], [-1, 0, 1, -1, 3, 2])])),
   ("p,d",
    ([tpl2 "U" 1 "d" 1 "d", tpl2 "F2" 1 "d" 1 "d", tpl2 "F4" 1 "d" 1 "d",
      tpl2 "U" 0 "p" 1 "d", tpl2 "F2" 0 "p" 1 "d", tpl2 "G1" 0 "p" 1 "d",
      tpl2 "G3" 0 "p" 1 "d", tplZ 1 "d", tplZ 0 "p"],
     [([0, 0], [-1, -1, -1, -1, -1, -1, -1, -1, -1]),
      ([0, 1], [-1, -1, -1, -1, -1, -1, -1, 0, -1]),
      ([0, -1], [-1, 0, 1, -1, -1, -1, -1, 2, -1]),
      ([1, 0], [-1, -1, -1, -1, -1, -1, -1, -1, 0]),
      ([1, 1], [-1, -1, -1, -1, 2, 3, 4, 1, 0]),
      ([1, -1], [-1, 0, 1, -1, 4, 5, 6, 3, 2]),
      ([-1, 0], [-1, -1, -1, -1, -1, -1, -1, -1, 1]),
      ([-1, 1], [-1, -1, -1, -1, 3, 4, 5, 2, 1]),
      ([-1, -1], [-1, 1, 2, -1, 5, 6, 7, 4, 3])])),
   ("f",
    ([tpl2 "U" 0 "f" 0 "f", tpl2 "F2" 0 "f" 0 "f", tpl2 "F4" 0 "f" 0 "f",
      tpl2 "F6" 0 "f" 0 "f", tpl2 "U" 0 "s" 1 "f", tplZ 0 "f"],
     [([0], [-1, -1, -1, -1, -1]),
      ([1], [-1, -1, -1, -1, 0]),
      ([-1], [-1, 0, 1, 2, 3])])),
   ("s,f",
    ([tpl2 "U" 1 "f" 1 "f", tpl2 "F2" 1 "f" 1 "f", tpl2 "F4" 1 "f" 1 "f",
      tpl2 "F6" 1 "f" 1 "f", tpl2 "U" 0 "s" 1 "d", tplZ 1 "f"],
     [([0, 0], [-1, -1, -1, -1, -1]),
      ([0, 1], [-1, -1, -1, -1, 0]),
      ([0, -1], [-1, 0, 1, 2, 3]),
      ([-1, -1], [-1, 0, 1, 2, 3])])),
   ("p,f",
    ([tpl2 "U" 1 "f" 1 "f", tpl2 "F2" 1 "f" 1 "f", tpl2 "F4" 1 "f" 1 "f",
      tpl2 "F6" 1 "f" 1 "f", tpl2 "U" 0 "p" 1 "f", tpl2 "F2" 0 "p" 1 "f",
      tpl2 "G2" 0 "p" 1 "f", tpl2 "G4" 0 "p" 1 "f", tplZ 1 "f", tplZ 0 "p"],
     [([0, 0], [-1, -1, -1, -1, -1, -1, -1, -1, -1, -1]),
      ([0, 1], [-1, -1, -1, -1, -1, -1, -1, -1, 0, -1]),
      ([0, -1], [-1, 0, 1, 2, -1, -1, -1, -1, 3, -1]),
      ([1, 0], [-1, -1, -1, -1, -1, -1, -1, -1, -1, 0]),
      ([1, 1], [-1, -1, -1, -1, -1, 2, 3, -1, 1, 0]),
      ([1, -1], [-1, 0, 1, 2, -1, 5, 6, 7, 4, 3]),
      ([-1, -1], [-1, 1, 2, 3, -1, 6, 7, 8, 5, 4])])),
   ("d,f",
    ([tpl2 "U" 0 "f" 0 "f", tpl2 "F2" 0 "f" 0 "f", tpl2 "F4" 0 "f" 0 "f",
      tpl2 "F6" 0 "f" 0 "f", tpl2 "U" 0 "d" 1 "f", tpl2 "F2" 0 "d" 1 "f",
      tpl2 "F4" 0 "d" 1 "f", tpl2 "G1" 0 "d" 1 "f", tpl2 "G3" 0 "d" 1 "f",
      tpl2 "G5" 0 "d" 1 "f", tplZ 1 "f", tplZ 0 "d"],
     [([0, 0], [-1, -1, -1, -1, -1, -1, -1, -1, -1, -1, -1, -1]),
      ([0, 1], [-1, -1, -1, -1, -1, -1, -1, -1, -1, -1, 0, -1]),
      ([0, -1], [-1, 0, 1, 2, -1, -1, -1, -1, -1, -1, 3, -1]),
      ([1, 0], [-1, -1, -1, -1, -1, -1, -1, -1, -1, -1, -1, 0]),
      ([1, 1], [-1, -1, -1, -1, -1, 2, 3, 4, 5, 6, 1, 0]),
      ([1, -1], [-1, 0, 1, 2, -1, 5, 6, 7, 8, 9, 4, 3]),
      ([-1, -1], [-1, 2, 3, 4, -1, 7, 8, 9, 10, 11, 6, 5])]))]

/-- The `atomic_parameters` setter: look the shell-letter key up in
`MAPPINGS` (`KeyError` when absent), build the occupancy-class key, look it
up in the family's index dict (`KeyError` when absent), then zip the name
templates with the index tuple (Python `zip` truncates to the shorter) and
map each formatted name to `values[index]`, or to `0.0` for the sentinel
index `-1`.  The opaque float values are modelled as integers; the ordered
dict is modelled as the insertion-ordered association list (all names
within a family are distinct).  No length comparison between `names` and
`values` occurs anywhere. -/
def set_atomic_parameters (c : Configuration) (values : List Int) :
    Except PyErr (List (String × Int)) :=
  let key := String.intercalate "," (c.shells.map fun sh => String.mk [sh])
  match MAPPINGS.lookup key with
  | none => .error .keyError
  | some (names, table) =>
    match buildKey c with
    | .error e => .error e
    | .ok k =>
      match table.lookup k with
      | none => .error .keyError
      | some indices =>
        (names.zip indices).mapM fun p =>
          match fmtTemplate p.1 c.levels with
          | .error e => .error e
          | .ok name =>
            if p.2 = -1 then .ok (name, 0)
            else match values.get? p.2.toNat with
              | some v => .ok (name, v)
              | none => .error .indexError

/-- Declarative reading of the grammar `^(\d)(\w)(\d+)$`: a digit, a word
character, then a nonempty run of digits. -/
def grammarSingle (l : List Char) : Prop :=
  ∃ d w r, l = d :: w :: r ∧ d.isDigit = true ∧ isWordChar w = true ∧
    r ≠ [] ∧ ∀ c ∈ r, c.isDigit = true

/-- Declarative reading of the grammar `^(\d)(\w)(\d+),(\d)(\w)(\d+)$`. -/
def grammarDouble (l : List Char) : Prop :=
  ∃ d1 w1 r1 d2 w2 r2, l = d1 :: w1 :: (r1 ++ ',' :: (d2 :: w2 :: r2)) ∧
    d1.isDigit = true ∧ isWordChar w1 = true ∧ r1 ≠ [] ∧ (∀ c ∈ r1, c.isDigit = true) ∧
    d2.isDigit = true ∧ isWordChar w2 = true ∧ r2 ≠ [] ∧ (∀ c ∈ r2, c.isDigit = true)

/-- Whole-string acceptance by an anchored pattern under Python's `$`
semantics: the pattern matches the string, or the string ends in a newline
and the pattern matches the string without it. -/
def pyAccepts (g : List Char → Prop) (l : List Char) : Prop :=
  g l ∨ (l.getLast? = some '\n' ∧ g l.dropLast)

/-- A configuration string matches one of the two patterns of the `name`
setter. -/
def matchesGrammars (s : String) : Prop :=
  pyAccepts grammarDouble s.data ∨ pyAccepts grammarSingle s.data

/-- The captured `(level, shell, occupancy-digits)` groups the `name`
setter works on: two triples for the core pattern, one for the
single-shell pattern, `none` when the destructuring `[tokens] = tokens`
would fail. -/
def parsedGroups (s : String) : Option (List (Char × Char × List Char)) :=
  match pyFullMatch matchDouble s.data, pyFullMatch matchSingle s.data with
  | some (t1, t2), none => some [t1, t2]
  | none, some t => some [t]
  | _, _ => none

/-- Every captured shell letter has an entry in `OCCUPANCIES` (vacuously
true for strings matching neither pattern). -/
def shellLettersOk (s : String) : Bool :=
  match parsedGroups s with
  | some ts => ts.all fun t => (OCCUPANCIES t.2.1).isSome
  | none => true

/-- Every captured occupancy is within its shell's capacity (vacuously true
for strings matching neither pattern). -/
def occupanciesOk (s : String) : Bool :=
  match parsedGroups s with
  | some ts => ts.all fun t =>
      match OCCUPANCIES t.2.1 with
      | some cap => decide (digitsToNat t.2.2 ≤ cap)
      | none => false
  | none => true

/-- The outcome is a Python `ValueError` (the "validation error" of the
spec's error taxonomy). -/
def isValidationError {α : Type} : Except PyErr α → Bool
  | .error (.valueError _) => true
  | _ => false

/-- Space-joining of rendered pieces, the spec's reading of the normalized
name layout. -/
def joinSpace : List String → String
  | [] => ""
  | [x] => x
  | x :: rest => x ++ " " ++ joinSpace rest

/-- The label rule exactly as claim C8 words it: upper-cased subshell
label, with the single exception of `"4F14 5D"` for a 5d subshell when no
4f subshell is listed. -/
def specLabelC8 (c : Configuration) (ss : String) : String :=
  if strContains ss "5d" && !(c.subshells.contains "4f") then "4F14 5D" else strToUpper ss

/-- Normalized-name rendering exactly as claim C8 words it. -/
def normalizeClaimC8 (c : Configuration) : String :=
  joinSpace ((c.subshells.zip c.occupancies).map fun p => specLabelC8 c p.1 ++ pad2 p.2)

/-- The label rule the code actually implements, spelled out: the C8 rule
plus the second substitution `"3D10 4F"` for a 4f subshell when the
configuration's name does not contain `"3d"`. -/
def specLabelAmended (c : Configuration) (ss : String) : String :=
  if strContains ss "5d" && !(c.subshells.contains "4f") then "4F14 5D"
  else if strContains ss "4f" && !(strContains c.name "3d") then "3D10 4F"
  else strToUpper ss

/-- Normalized-name rendering under the amended (two-substitution) rule. -/
def normalizeAmended (c : Configuration) : String :=
  joinSpace ((c.subshells.zip c.occupancies).map fun p => specLabelAmended c p.1 ++ pad2 p.2)

/-- Python `"{:02d}"` on a (possibly negative) integer. -/
def pad2Int (o : Int) : String :=
  if 0 ≤ o ∧ o < 10 then "0" ++ Int.repr o else Int.repr o

/-- Construction helper exactly as claim C7 words it: occupancies rendered
zero-padded to two digits (`"{subshell}{occupancy:02d}"`). -/
def from_subshells_and_occupancies_claim (subshells : List String) (occupancies : List Int) :
    Except PyErr Configuration :=
  parseConfig (String.intercalate ","
    (List.zipWith (fun ss occ => ss ++ pad2Int occ) subshells occupancies))

/-- The last character exists and is not whitespace. -/
def lastNonWs (s : String) : Bool :=
  match s.data.reverse with
  | ch :: _ => !ch.isWhitespace
  | [] => false

example : parseConfig "3d5" =
    .ok ⟨"3d5", [3], ['d'], [5], ["3d"]⟩ := by decide

example : parseConfig "1s1,3d6" =
    .ok ⟨"1s1,3d6", [1, 3], ['s', 'd'], [1, 6], ["1s", "3d"]⟩ := by decide

example : parseConfig "3d11" =
    .error (.valueError "Wrong number of electrons in the valence shell.") := by decide

example : parseConfig "1x2" = .error .keyError := by decide

example : parseConfig "3d" = .error (.valueError "Invalid configuration string.") := by decide

example : valence_subshell ⟨"Fe", 26, some "3+"⟩ = some "3d" := by decide

example : valence_occupancy ⟨"Fe", 26, some "3+"⟩ = .ok 5 := by decide

example : valence_occupancy ⟨"Fe", 26, some "2-"⟩ = .ok 10 := by decide

example : particleKey 's' 1 = .ok (-1) := by decide

example : particleKey 'd' 9 = .ok 1 := by decide

example : (parseConfig "4f5").map normalize_configuration_name = .ok "3D10 4F05" := by decide

example : (parseConfig "1s1,3d6").map normalize_configuration_name = .ok "1S01 3D06" := by decide

example : (parseConfig "1s1,5d4").map normalize_configuration_name = .ok "1S01 4F14 5D04" := by decide

example : (parseConfig "1s1,3d6").map initial_configuration =
    .ok (.ok ⟨"3d5", [3], ['d'], [5], ["3d"]⟩) := by decide

example : (parseConfig "1s1,3d0").map initial_configuration =
    .ok (.ok ⟨"3d0", [3], ['d'], [0], ["3d"]⟩) := by decide

example : from_subshells_and_occupancies ["3d"] [5] =
    .ok ⟨"3d5", [3], ['d'], [5], ["3d"]⟩ := by decide

example : set_atomic_parameters ⟨"1s1,3d6", [1, 3], ['s', 'd'], [1, 6], ["1s", "3d"]⟩
      [10, 20, 30, 40, 50, 60, 70] =
    .ok [("U(3d,3d)", 0), ("F2(3d,3d)", 10), ("F4(3d,3d)", 20),
      ("U(1s,3d)", 0), ("G2(1s,3d)", 40), ("ζ(3d)", 30)] := by decide

example : set_atomic_parameters ⟨"3d0", [3], ['d'], [0], ["3d"]⟩ [10, 20, 30, 40, 50, 60, 70] =
    .ok [("U(3d,3d)", 0), ("F2(3d,3d)", 0), ("F4(3d,3d)", 0), ("ζ(3d)", 0)] := by decide

example : set_atomic_parameters ⟨"4f5", [4], ['f'], [5], ["4f"]⟩ [10, 20, 30, 40, 50] =
    .error .indexError := by decide

example : set_atomic_parameters ⟨"1s2", [1], ['s'], [2], ["1s"]⟩ [10] =
    .error .keyError := by decide

/-! ### Helper lemmas: characters, digit strings, decimal renderings -/

theorem digit_toNat_bounds (c : Char) (h : c.isDigit = true) :
    48 ≤ c.toNat ∧ c.toNat ≤ 57 := by
  simp [Char.isDigit] at h
  exact h

theorem digitsToNat_single (c : Char) : digitsToNat [c] = c.toNat - 48 := by
  simp [digitsToNat]

theorem digitsToNat_single_le9 (c : Char) (h : c.isDigit = true) : digitsToNat [c] ≤ 9 := by
  have := digit_toNat_bounds c h
  rw [digitsToNat_single]
  omega

theorem repr_nat14 (m : Nat) (h : m ≤ 14) :
    (Nat.repr m).data ≠ [] ∧ (∀ ch ∈ (Nat.repr m).data, ch.isDigit = true) ∧
      digitsToNat (Nat.repr m).data = m := by
  interval_cases m <;> exact ⟨by decide, by decide, by decide⟩

theorem repr_level (l : Nat) (h : l ≤ 9) :
    ∃ ch, (Nat.repr l).data = [ch] ∧ ch.isDigit = true ∧ digitsToNat [ch] = l := by
  interval_cases l <;> exact ⟨_, rfl, by decide, by decide⟩

theorem cap_le14 (sh : Char) (cap : Nat) (h : OCCUPANCIES sh = some cap) : cap ≤ 14 := by
  unfold OCCUPANCIES at h
  split_ifs at h
  all_goals first
    | (injection h with h; omega)
    | exact Option.noConfusion h

theorem shell_letter_props (sh : Char) (cap : Nat) (h : OCCUPANCIES sh = some cap) :
    isWordChar sh = true ∧ sh ≠ ',' ∧ sh ≠ '\n' ∧ sh.isDigit = false := by
  unfold OCCUPANCIES at h
  split_ifs at h with h1 h2 h3 h4
  all_goals first
    | (subst_vars; exact ⟨by decide, by decide, by decide, by decide⟩)
    | exact Option.noConfusion h

/-! ### Helper lemmas: lists -/

theorem takeWhile_all_append (p : Char → Bool) (l : List Char)
    (h : ∀ c ∈ l, p c = true) (b : Char) (hb : p b = false) (t : List Char) :
    List.takeWhile p (l ++ b :: t) = l := by
  induction l with
  | nil => simp [List.takeWhile, hb]
  | cons x xs ih =>
    simp only [List.cons_append, List.takeWhile_cons]
    rw [h x (by simp)]
    simp [ih fun c hc => h c (by simp [hc])]

theorem dropWhile_all_append (p : Char → Bool) (l : List Char)
    (h : ∀ c ∈ l, p c = true) (b : Char) (hb : p b = false) (t : List Char) :
    List.dropWhile p (l ++ b :: t) = b :: t := by
  induction l with
  | nil => simp [List.dropWhile, hb]
  | cons x xs ih =>
    simp only [List.cons_append, List.dropWhile_cons]
    rw [h x (by simp)]
    simpa using ih fun c hc => h c (by simp [hc])

theorem mem_of_mem_dropWhile {p : Char → Bool} {l : List Char} {c : Char}
    (h : c ∈ List.dropWhile p l) : c ∈ l :=
  (List.dropWhile_sublist _).mem h

theorem mem_dropLast_of_ne_last (l : List Char) (a b : Char) (hm : b ∈ l)
    (hl : l.getLast? = some a) (hne : b ≠ a) : b ∈ l.dropLast := by
  have hne' : l ≠ [] := by rintro rfl; simp at hl
  have h1 : l.dropLast ++ [l.getLast hne'] = l := List.dropLast_append_getLast hne'
  have h2 : l.getLast hne' = a := by
    rw [List.getLast?_eq_getLast _ hne'] at hl
    exact Option.some_inj.mp hl
  rw [← h1] at hm
  rcases List.mem_append.mp hm with h | h
  · exact h
  · simp at h
    exact absurd (h.trans h2) hne

/-! ### Helper lemmas: strings -/

theorem str_data_append (a b : String) : (a ++ b).data = a.data ++ b.data :=
  String.data_append a b

theorem str_append_empty (s : String) : s ++ "" = s := by
  cases s with
  | mk l =>
    show String.mk (l ++ []) = String.mk l
    rw [List.append_nil]

theorem str_mk_data (s : String) : String.mk s.data = s := rfl

/-! ### Helper lemmas: the two regex matchers -/

theorem matchSingle_build (d w : Char) (r : List Char) (hd : d.isDigit = true)
    (hw : isWordChar w = true) (hr : r ≠ []) (hall : ∀ c ∈ r, c.isDigit = true) :
    matchSingle (d :: w :: r) = some (d, w, r) := by
  have h1 : r.isEmpty = false := by
    cases r with
    | nil => exact absurd rfl hr
    | cons x xs => rfl
  have h2 : r.all Char.isDigit = true := List.all_eq_true.mpr hall
  simp [matchSingle, hd, hw, h1, h2]

theorem matchSingle_some (l : List Char) (d w : Char) (r : List Char)
    (h : matchSingle l = some (d, w, r)) :
    l = d :: w :: r ∧ d.isDigit = true ∧ isWordChar w = true ∧ r ≠ [] ∧
      ∀ c ∈ r, c.isDigit = true := by
  cases l with
  | nil => exact absurd h (by simp [matchSingle])
  | cons a t =>
    cases t with
    | nil => exact absurd h (by simp [matchSingle])
    | cons b r' =>
      simp only [matchSingle] at h
      split_ifs at h with hc
      · simp only [Option.some.injEq, Prod.mk.injEq] at h
        obtain ⟨rfl, rfl, rfl⟩ := h
        simp only [Bool.and_eq_true, Bool.not_eq_true', List.all_eq_true] at hc
        refine ⟨rfl, hc.1.1.1, hc.1.1.2, ?_, hc.2⟩
        intro hre
        rw [hre] at hc
        simp at hc

theorem matchSingle_exists_iff (l : List Char) :
    (∃ x, matchSingle l = some x) ↔ grammarSingle l := by
  constructor
  · rintro ⟨⟨d, w, r⟩, hx⟩
    obtain ⟨hl, hd, hw, hr, hall⟩ := matchSingle_some l d w r hx
    exact ⟨d, w, r, hl, hd, hw, hr, hall⟩
  · rintro ⟨d, w, r, rfl, hd, hw, hr, hall⟩
    exact ⟨(d, w, r), matchSingle_build d w r hd hw hr hall⟩

theorem matchSingle_no_comma (l : List Char) (x : Char × Char × List Char)
    (h : matchSingle l = some x) : ',' ∉ l := by
  obtain ⟨d, w, r⟩ := x
  obtain ⟨rfl, hd, hw, hr, hall⟩ := matchSingle_some l d w r h
  intro hmem
  rcases hmem with _ | ⟨_, hmem⟩
  · simp at hd
  · rcases hmem with _ | ⟨_, hmem⟩
    · simp [isWordChar] at hw
    · have := hall _ hmem
      simp at this

theorem matchDouble_build (d1 w1 : Char) (r1 : List Char) (d2 w2 : Char) (r2 : List Char)
    (hd1 : d1.isDigit = true) (hw1 : isWordChar w1 = true) (hr1 : r1 ≠ [])
    (hall1 : ∀ c ∈ r1, c.isDigit = true) (hd2 : d2.isDigit = true)
    (hw2 : isWordChar w2 = true) (hr2 : r2 ≠ []) (hall2 : ∀ c ∈ r2, c.isDigit = true) :
    matchDouble (d1 :: w1 :: (r1 ++ ',' :: (d2 :: w2 :: r2))) =
      some ((d1, w1, r1), (d2, w2, r2)) := by
  have htake : List.takeWhile Char.isDigit (r1 ++ ',' :: (d2 :: w2 :: r2)) = r1 :=
    takeWhile_all_append _ r1 hall1 ',' (by decide) _
  have hdrop : List.dropWhile Char.isDigit (r1 ++ ',' :: (d2 :: w2 :: r2)) =
      ',' :: (d2 :: w2 :: r2) :=
    dropWhile_all_append _ r1 hall1 ',' (by decide) _
  have h1 : r1.isEmpty = false := by
    cases r1 with
    | nil => exact absurd rfl hr1
    | cons x xs => rfl
  have hs : matchSingle (d2 :: w2 :: r2) = some (d2, w2, r2) :=
    matchSingle_build d2 w2 r2 hd2 hw2 hr2 hall2
  simp only [matchDouble]
  rw [htake, hdrop]
  simp [hd1, hw1, h1, hs]

theorem matchDouble_some (l : List Char) (d1 w1 : Char) (r1 : List Char) (d2 w2 : Char)
    (r2 : List Char) (h : matchDouble l = some ((d1, w1, r1), (d2, w2, r2))) :
    l = d1 :: w1 :: (r1 ++ ',' :: (d2 :: w2 :: r2)) ∧
      d1.isDigit = true ∧ isWordChar w1 = true ∧ r1 ≠ [] ∧ (∀ c ∈ r1, c.isDigit = true) ∧
      d2.isDigit = true ∧ isWordChar w2 = true ∧ r2 ≠ [] ∧ (∀ c ∈ r2, c.isDigit = true) := by
  cases l with
  | nil => exact absurd h (by simp [matchDouble])
  | cons a t =>
    cases t with
    | nil => exact absurd h (by simp [matchDouble])
    | cons b rest =>
      simp only [matchDouble] at h
      cases hdrop : List.dropWhile Char.isDigit rest with
      | nil => rw [hdrop] at h; exact absurd h (by simp)
      | cons hd tl =>
        rw [hdrop] at h
        simp only at h
        split_ifs at h with hcomma hc
        · subst hcomma
          cases hms : matchSingle tl with
          | none => rw [hms] at h; exact absurd h (by simp)
          | some t2 =>
            rw [hms] at h
            simp only [Option.some.injEq, Prod.mk.injEq] at h
            obtain ⟨⟨rfl, rfl, hr1⟩, ht2⟩ := h
            subst hr1
            obtain ⟨rfl, hd2, hw2, hr2, hall2⟩ :=
              matchSingle_some tl d2 w2 r2 (ht2 ▸ hms)
            simp only [Bool.and_eq_true, Bool.not_eq_true'] at hc
            have hall1 : ∀ c ∈ List.takeWhile Char.isDigit rest, c.isDigit = true :=
              fun c hc' => List.mem_takeWhile_imp hc'
            have hne1 : List.takeWhile Char.isDigit rest ≠ [] := by
              intro he
              rw [he] at hc
              simp at hc
            refine ⟨?_, hc.1.1, hc.1.2, hne1, hall1, hd2, hw2, hr2, hall2⟩
            have hsplit : List.takeWhile Char.isDigit rest ++
                List.dropWhile Char.isDigit rest = rest :=
              List.takeWhile_append_dropWhile _ _
            rw [hdrop] at hsplit
            rw [hsplit]

theorem matchDouble_exists_iff (l : List Char) :
    (∃ x, matchDouble l = some x) ↔ grammarDouble l := by
  constructor
  · rintro ⟨⟨⟨d1, w1, r1⟩, ⟨d2, w2, r2⟩⟩, hx⟩
    obtain ⟨hl, hd1, hw1, hr1, hall1, hd2, hw2, hr2, hall2⟩ :=
      matchDouble_some l d1 w1 r1 d2 w2 r2 hx
    exact ⟨d1, w1, r1, d2, w2, r2, hl, hd1, hw1, hr1, hall1, hd2, hw2, hr2, hall2⟩
  · rintro ⟨d1, w1, r1, d2, w2, r2, rfl, hd1, hw1, hr1, hall1, hd2, hw2, hr2, hall2⟩
    exact ⟨((d1, w1, r1), (d2, w2, r2)),
      matchDouble_build d1 w1 r1 d2 w2 r2 hd1 hw1 hr1 hall1 hd2 hw2 hr2 hall2⟩

theorem matchDouble_comma (l : List Char) (x : (Char × Char × List Char) × Char × Char × List Char)
    (h : matchDouble l = some x) : ',' ∈ l := by
  obtain ⟨⟨d1, w1, r1⟩, ⟨d2, w2, r2⟩⟩ := x
  obtain ⟨rfl, -, -, -, -, -, -, -, -⟩ := matchDouble_some l d1 w1 r1 d2 w2 r2 h
  simp

theorem getLast_mem_of_eq_some (l : List Char) (a : Char) (h : l.getLast? = some a) : a ∈ l := by
  have hne : l ≠ [] := by rintro rfl; simp at h
  rw [List.getLast?_eq_getLast _ hne, Option.some_inj] at h
  rw [← h]
  exact List.getLast_mem hne

theorem pyFullMatch_eq_body {α : Type} (body : List Char → Option α) (l : List Char)
    (h : l.getLast? ≠ some '\n') : pyFullMatch body l = body l := by
  unfold pyFullMatch
  cases hb : body l with
  | some x => rfl
  | none => simp [h]

theorem pyDouble_some_comma (l : List Char)
    (x : (Char × Char × List Char) × Char × Char × List Char)
    (h : pyFullMatch matchDouble l = some x) : ',' ∈ l := by
  unfold pyFullMatch at h
  cases hb : matchDouble l with
  | some y => exact matchDouble_comma l y hb
  | none =>
    rw [hb] at h
    simp only at h
    split_ifs at h with hn
    exact (List.dropLast_sublist l).mem (matchDouble_comma _ _ h)

theorem pySingle_none_of_comma (l : List Char) (h : ',' ∈ l) :
    pyFullMatch matchSingle l = none := by
  unfold pyFullMatch
  cases hb : matchSingle l with
  | some x => exact absurd h (matchSingle_no_comma l x hb)
  | none =>
    simp only
    split_ifs with hn
    · cases hb2 : matchSingle l.dropLast with
      | some x =>
        have hmem : ',' ∈ l.dropLast :=
          mem_dropLast_of_ne_last l '\n' ',' h hn (by decide)
        exact absurd hmem (matchSingle_no_comma _ x hb2)
      | none => rfl
    · rfl

theorem py_disjoint (l : List Char)
    (x : (Char × Char × List Char) × Char × Char × List Char)
    (h : pyFullMatch matchDouble l = some x) : pyFullMatch matchSingle l = none :=
  pySingle_none_of_comma l (pyDouble_some_comma l x h)

theorem grammarSingle_no_newline (l : List Char) (h : grammarSingle l) : '\n' ∉ l := by
  obtain ⟨d, w, r, rfl, hd, hw, hr, hall⟩ := h
  intro hmem
  rcases hmem with _ | ⟨_, hmem⟩
  · simp at hd
  · rcases hmem with _ | ⟨_, hmem⟩
    · simp [isWordChar] at hw
    · have := hall _ hmem
      simp at this

theorem grammarDouble_no_newline (l : List Char) (h : grammarDouble l) : '\n' ∉ l := by
  obtain ⟨d1, w1, r1, d2, w2, r2, rfl, hd1, hw1, hr1, hall1, hd2, hw2, hr2, hall2⟩ := h
  intro hmem
  rcases hmem with _ | ⟨_, hmem⟩
  · simp at hd1
  · rcases hmem with _ | ⟨_, hmem⟩
    · simp [isWordChar] at hw1
    · rcases List.mem_append.mp hmem with hm | hm
      · have := hall1 _ hm
        simp at this
      · rcases hm with _ | ⟨_, hm⟩
        · rcases hm with _ | ⟨_, hm⟩
          · simp at hd2
          · rcases hm with _ | ⟨_, hm⟩
            · simp [isWordChar] at hw2
            · have := hall2 _ hm
              simp at this

theorem pySingle_exists_iff (l : List Char) :
    (∃ x, pyFullMatch matchSingle l = some x) ↔ pyAccepts grammarSingle l := by
  unfold pyFullMatch pyAccepts
  cases hb : matchSingle l with
  | some x =>
    have hg : grammarSingle l := (matchSingle_exists_iff l).mp ⟨x, hb⟩
    simp [hg]
  | none =>
    have hg : ¬grammarSingle l := by
      intro hgl
      obtain ⟨x, hx⟩ := (matchSingle_exists_iff l).mpr hgl
      rw [hx] at hb
      cases hb
    by_cases hn : l.getLast? = some '\n'
    · rw [if_pos hn]
      constructor
      · intro hx
        exact Or.inr ⟨hn, (matchSingle_exists_iff l.dropLast).mp hx⟩
      · rintro (hgl | ⟨-, hdl⟩)
        · exact absurd hgl hg
        · exact (matchSingle_exists_iff l.dropLast).mpr hdl
    · simp [hn, hg]

theorem pyDouble_exists_iff (l : List Char) :
    (∃ x, pyFullMatch matchDouble l = some x) ↔ pyAccepts grammarDouble l := by
  unfold pyFullMatch pyAccepts
  cases hb : matchDouble l with
  | some x =>
    have hg : grammarDouble l := (matchDouble_exists_iff l).mp ⟨x, hb⟩
    simp [hg]
  | none =>
    have hg : ¬grammarDouble l := by
      intro hgl
      obtain ⟨x, hx⟩ := (matchDouble_exists_iff l).mpr hgl
      rw [hx] at hb
      cases hb
    by_cases hn : l.getLast? = some '\n'
    · rw [if_pos hn]
      constructor
      · intro hx
        exact Or.inr ⟨hn, (matchDouble_exists_iff l.dropLast).mp hx⟩
      · rintro (hgl | ⟨-, hdl⟩)
        · exact absurd hgl hg
        · exact (matchDouble_exists_iff l.dropLast).mpr hdl
    · simp [hn, hg]

/-! ### Helper lemmas: what a successful parse produces -/

theorem parse_ok_name (s : String) (c : Configuration) (h : parseConfig s = .ok c) :
    c.name = s := by
  unfold parseConfig at h
  repeat' split at h
  all_goals try simp only [gt_iff_lt] at h
  all_goals try split_ifs at h
  all_goals first
    | (injection h with h; rw [← h])
    | exact absurd h (by simp)

theorem pyDouble_groups (l : List Char) (d1 w1 : Char) (r1 : List Char) (d2 w2 : Char)
    (r2 : List Char) (h : pyFullMatch matchDouble l = some ((d1, w1, r1), (d2, w2, r2))) :
    d1.isDigit = true ∧ isWordChar w1 = true ∧ r1 ≠ [] ∧ (∀ c ∈ r1, c.isDigit = true) ∧
      d2.isDigit = true ∧ isWordChar w2 = true ∧ r2 ≠ [] ∧ (∀ c ∈ r2, c.isDigit = true) := by
  unfold pyFullMatch at h
  cases hb : matchDouble l with
  | some y =>
    rw [hb] at h
    simp only [Option.some.injEq] at h
    subst h
    obtain ⟨-, hp⟩ := matchDouble_some l d1 w1 r1 d2 w2 r2 hb
    exact hp
  | none =>
    rw [hb] at h
    simp only at h
    split_ifs at h with hn
    obtain ⟨-, hp⟩ := matchDouble_some l.dropLast d1 w1 r1 d2 w2 r2 h
    exact hp

theorem pySingle_groups (l : List Char) (d w : Char) (r : List Char)
    (h : pyFullMatch matchSingle l = some (d, w, r)) :
    d.isDigit = true ∧ isWordChar w = true ∧ r ≠ [] ∧ (∀ c ∈ r, c.isDigit = true) := by
  unfold pyFullMatch at h
  cases hb : matchSingle l with
  | some y =>
    rw [hb] at h
    simp only [Option.some.injEq] at h
    subst h
    obtain ⟨-, hp⟩ := matchSingle_some l d w r hb
    exact hp
  | none =>
    rw [hb] at h
    simp only at h
    split_ifs at h with hn
    obtain ⟨-, hp⟩ := matchSingle_some l.dropLast d w r h
    exact hp

theorem parse_ok_valid (s : String) (c : Configuration) (h : parseConfig s = .ok c) :
    validConfig c = true := by
  unfold parseConfig at h
  split at h
  · exact absurd h (by simp)
  · exact absurd h (by simp)
  · rename_i xD xS d1 w1 r1 d2 w2 r2 hD hS
    obtain ⟨hd1, hw1, hr1, hall1, hd2, hw2, hr2, hall2⟩ :=
      pyDouble_groups s.data d1 w1 r1 d2 w2 r2 hD
    simp only [gt_iff_lt] at h
    cases hv : OCCUPANCIES w2 with
    | none => rw [hv] at h; exact absurd h (by simp)
    | some vcap =>
      rw [hv] at h
      simp only at h
      cases hc : OCCUPANCIES w1 with
      | none =>
        rw [hc] at h
        simp only at h
        split_ifs at h
      | some ccap =>
        rw [hc] at h
        simp only at h
        split_ifs at h with h1 h2
        injection h with h
        subst h
        have hl1 : digitsToNat [d1] ≤ 9 := digitsToNat_single_le9 d1 hd1
        have hl2 : digitsToNat [d2] ≤ 9 := digitsToNat_single_le9 d2 hd2
        simp only [validConfig, validTriple, hv, hc, beq_self_eq_true, Bool.and_true,
          Bool.and_eq_true, decide_eq_true_eq]
        omega
  · rename_i xD xS d w r hD hS
    obtain ⟨hd, hw, hr, hall⟩ := pySingle_groups s.data d w r hS
    simp only [gt_iff_lt] at h
    cases hv : OCCUPANCIES w with
    | none => rw [hv] at h; exact absurd h (by simp)
    | some vcap =>
      rw [hv] at h
      simp only at h
      split_ifs at h with h1
      injection h with h
      subst h
      have hl : digitsToNat [d] ≤ 9 := digitsToNat_single_le9 d hd
      simp only [validConfig, validTriple, hv, beq_self_eq_true, Bool.and_true,
        Bool.and_eq_true, decide_eq_true_eq]
      omega

theorem cap_cases (sh : Char) (cap : Nat) (h : OCCUPANCIES sh = some cap) :
    (sh = 's' ∧ cap = 2) ∨ (sh = 'p' ∧ cap = 6) ∨ (sh = 'd' ∧ cap = 10) ∨
      (sh = 'f' ∧ cap = 14) := by
  unfold OCCUPANCIES at h
  split_ifs at h with h1 h2 h3 h4
  · exact Or.inl ⟨h1, by injection h with h; omega⟩
  · exact Or.inr (Or.inl ⟨h2, by injection h with h; omega⟩)
  · exact Or.inr (Or.inr (Or.inl ⟨h3, by injection h with h; omega⟩))
  · exact Or.inr (Or.inr (Or.inr ⟨h4, by injection h with h; omega⟩))

/-! ### Claims -/

/-- C5: for every configuration string accepted by the parser, the canonical
name of the resulting `Configuration` is the input string itself, and
re-parsing that name deterministically reproduces the identical
configuration — in particular identical `levels`, `shells`, `occupancies`
and `subshells` (parse→render→parse is idempotent). -/
theorem spec_claim_C5 (s : String) (c : Configuration) (h : parseConfig s = .ok c) :
    c.name = s ∧ parseConfig c.name = .ok c := by
  have hn := parse_ok_name s c h
  exact ⟨hn, by rw [hn]; exact h⟩

theorem spec_claim_C5_witness :
    parseConfig "1s1,3d6" =
        .ok ⟨"1s1,3d6", [1, 3], ['s', 'd'], [1, 6], ["1s", "3d"]⟩ ∧
      (Configuration.mk "1s1,3d6" [1, 3] ['s', 'd'] [1, 6] ["1s", "3d"]).name = "1s1,3d6" ∧
      parseConfig (Configuration.mk "1s1,3d6" [1, 3] ['s', 'd'] [1, 6] ["1s", "3d"]).name =
        .ok ⟨"1s1,3d6", [1, 3], ['s', 'd'], [1, 6], ["1s", "3d"]⟩ := by
  refine ⟨by decide, ?_, ?_⟩
  · exact (spec_claim_C5 "1s1,3d6" _ (by decide)).1
  · exact (spec_claim_C5 "1s1,3d6" _ (by decide)).2

/-- C1 counterexample: the claim says occupancy 1 is always classified
"one", but for the s shell (capacity 2) occupancy 1 receives the key −1 —
the same key a many-electron shell gets (d with occupancy 5) and a
different key from a genuine one-particle case (d with occupancy 1).  So
the classification at (s, 1) is not "one". -/
theorem spec_claim_C1_counterexample :
    particleKey 's' 1 = .ok (-1) ∧ particleKey 'd' 5 = .ok (-1) ∧
      particleKey 'd' 1 = .ok 1 ∧ particleKey 's' 1 ≠ particleKey 'd' 1 := by decide

/-- C1 (amended): for every shell letter with a capacity and every occupancy
within it, the classification key is 0 ("zero") exactly when the occupancy
is 0 or the capacity; it is 1 ("one") exactly when the occupancy is 1 or
capacity−1 AND the shell is not `s` (an s shell then receives the
"multiple" key −1); it is −1 otherwise; and the key list built by the
`atomic_parameters` setter applies this same function of (shell letter,
occupancy) at every position, independent of the core or valence role. -/
theorem spec_claim_C1_amended (sh : Char) (cap occ : Nat)
    (hcap : OCCUPANCIES sh = some cap) (hocc : occ ≤ cap) :
    ((particleKey sh occ = .ok 0 ↔ (occ = 0 ∨ occ = cap)) ∧
      (particleKey sh occ = .ok 1 ↔ ((occ = 1 ∨ occ = cap - 1) ∧ sh ≠ 's')) ∧
      (particleKey sh occ = .ok (-1) ↔
        (¬(occ = 0 ∨ occ = cap) ∧ ((¬(occ = 1 ∨ occ = cap - 1)) ∨ sh = 's')))) ∧
    (∀ c : Configuration, buildKey c =
      (c.occupancies.zip c.shells).mapM fun p => particleKey p.2 p.1) := by
  constructor
  · rcases cap_cases sh cap hcap with ⟨rfl, rfl⟩ | ⟨rfl, rfl⟩ | ⟨rfl, rfl⟩ | ⟨rfl, rfl⟩ <;>
      (interval_cases occ <;> refine ⟨by decide, by decide, by decide⟩)
  · intro c
    rfl

theorem spec_claim_C1_witness :
    OCCUPANCIES 'd' = some 10 ∧ (9 : Nat) ≤ 10 ∧
      (particleKey 'd' 9 = .ok 1 ↔ ((9 = 1 ∨ 9 = 10 - 1) ∧ 'd' ≠ 's')) :=
  ⟨by decide, by decide, (spec_claim_C1_amended 'd' 10 9 (by decide) (by decide)).1.2.1⟩

/-- C6: the particle classification of the `atomic_parameters` setter is
symmetric under particle/hole exchange: for every shell letter with a
capacity and every occupancy within it, (shell, occupancy) and
(shell, capacity − occupancy) receive the same key. -/
theorem spec_claim_C6 (sh : Char) (cap occ : Nat) (hcap : OCCUPANCIES sh = some cap)
    (hocc : occ ≤ cap) : particleKey sh occ = particleKey sh (cap - occ) := by
  rcases cap_cases sh cap hcap with ⟨rfl, rfl⟩ | ⟨rfl, rfl⟩ | ⟨rfl, rfl⟩ | ⟨rfl, rfl⟩ <;>
    (interval_cases occ <;> decide)

theorem spec_claim_C6_witness :
    OCCUPANCIES 'd' = some 10 ∧ (3 : Nat) ≤ 10 ∧
      particleKey 'd' 3 = particleKey 'd' (10 - 3) :=
  ⟨by decide, by decide, spec_claim_C6 'd' 10 3 (by decide) (by decide)⟩

/-- C3 counterexample: an element whose charge string is "12+" (magnitude
12, then the sign) is parsed by string reversal into the integer 21, not
+12, so the occupancy 26 − 21 − 18 = −13 differs from the claimed
26 − 12 − 18 = −4: the "magnitude then sign" reading is wrong for
multi-digit magnitudes. -/
theorem spec_claim_C3_counterexample :
    valence_occupancy ⟨"Fe", 26, some "12+"⟩ = .ok (-13) ∧
      (-13 : Int) ≠ (26 : Int) - 12 - 18 := by decide

/-- C3 (amended): the charge string is parsed by reversing it and reading
the result as a sign-then-magnitude integer; for single-digit magnitudes
this coincides with the magnitude-then-sign reading ("3+" is +3, "2-" is
−2), and the valence occupancy is atomic_number − charge − the
core-electron count of the valence subshell; in particular Fe (atomic
number 26) with charge "3+" has valence subshell "3d" and valence
occupancy 5. -/
theorem spec_claim_C3_amended :
    (∀ (sym : String) (Z m : Nat) (ss : String) (core : Nat), m ≤ 9 →
      valence_subshell ⟨sym, Z, some (Nat.repr m ++ "+")⟩ = some ss →
      coreElectronsOf ss = some core →
      valence_occupancy ⟨sym, Z, some (Nat.repr m ++ "+")⟩ =
        .ok ((Z : Int) - (m : Int) - (core : Int))) ∧
    (∀ (sym : String) (Z m : Nat) (ss : String) (core : Nat), m ≤ 9 →
      valence_subshell ⟨sym, Z, some (Nat.repr m ++ "-")⟩ = some ss →
      coreElectronsOf ss = some core →
      valence_occupancy ⟨sym, Z, some (Nat.repr m ++ "-")⟩ =
        .ok ((Z : Int) + (m : Int) - (core : Int))) ∧
    (valence_subshell ⟨"Fe", 26, some "3+"⟩ = some "3d" ∧
      valence_occupancy ⟨"Fe", 26, some "3+"⟩ = .ok 5) := by
  refine ⟨?_, ?_, ⟨by decide, by decide⟩⟩
  · intro sym Z m ss core hm hsub hcore
    obtain ⟨ch, hch, hdig, hval⟩ := repr_level m hm
    have hdata : (Nat.repr m ++ "+").data.reverse = '+' :: [ch] := by
      rw [str_data_append, hch]
      rfl
    have hint : pythonInt (String.mk (Nat.repr m ++ "+").data.reverse) = some (m : Int) := by
      rw [hdata]
      unfold pythonInt
      simp [hdig, hval]
    unfold valence_occupancy
    simp only [hint, hsub, hcore]
  · intro sym Z m ss core hm hsub hcore
    obtain ⟨ch, hch, hdig, hval⟩ := repr_level m hm
    have hdata : (Nat.repr m ++ "-").data.reverse = '-' :: [ch] := by
      rw [str_data_append, hch]
      rfl
    have hint : pythonInt (String.mk (Nat.repr m ++ "-").data.reverse) =
        some (-(m : Int)) := by
      rw [hdata]
      unfold pythonInt
      simp [hdig, hval]
    unfold valence_occupancy
    simp only [hint, hsub, hcore]
    have : (Z : Int) - -(m : Int) - (core : Int) = (Z : Int) + (m : Int) - (core : Int) := by
      ring
    rw [this]

theorem spec_claim_C3_witness :
    (3 : Nat) ≤ 9 ∧
      valence_subshell ⟨"Fe", 26, some (Nat.repr 3 ++ "+")⟩ = some "3d" ∧
      coreElectronsOf "3d" = some 18 ∧
      valence_occupancy ⟨"Fe", 26, some (Nat.repr 3 ++ "+")⟩ =
        .ok ((26 : Int) - (3 : Int) - (18 : Int)) :=
  ⟨by decide, by decide, by decide,
    spec_claim_C3_amended.1 "Fe" 26 3 "3d" 18 (by decide) (by decide) (by decide)⟩

/-- C2 counterexample: for the configuration "3d0", four parameter names
are resolved but a list of seven raw values is accepted without any fatal
diagnostic — the mapping is produced silently (every name padded with 0.0,
all seven values ignored), so a name/value count mismatch is not fatal. -/
theorem spec_claim_C2_counterexample :
    parseConfig "3d0" = .ok ⟨"3d0", [3], ['d'], [0], ["3d"]⟩ ∧
      set_atomic_parameters ⟨"3d0", [3], ['d'], [0], ["3d"]⟩ [10, 20, 30, 40, 50, 60, 70] =
        .ok [("U(3d,3d)", 0), ("F2(3d,3d)", 0), ("F4(3d,3d)", 0), ("ζ(3d)", 0)] ∧
      isValidationError (set_atomic_parameters ⟨"3d0", [3], ['d'], [0], ["3d"]⟩
        [10, 20, 30, 40, 50, 60, 70]) = false ∧
      (7 : Nat) ≠ 4 := by
  refine ⟨by decide, by decide, by decide, by decide⟩

/-- C2 (amended): the `atomic_parameters` setter performs no name/value
count check at all: for the configuration "3d0" (d shell, occupancy 0),
assigning a value list of ANY length — including lengths different from
the four resolved names — succeeds silently, producing the four names each
padded with the 0.0 placeholder; extra values are ignored (a value needed
at a missing index would surface only as an unlogged index error). -/
theorem spec_claim_C2_amended (values : List Int) (c : Configuration)
    (h : parseConfig "3d0" = .ok c) :
    set_atomic_parameters c values =
      .ok [("U(3d,3d)", 0), ("F2(3d,3d)", 0), ("F4(3d,3d)", 0), ("ζ(3d)", 0)] := by
  have hp : parseConfig "3d0" = .ok ⟨"3d0", [3], ['d'], [0], ["3d"]⟩ := by decide
  rw [hp] at h
  injection h with h
  rw [← h]
  rfl

theorem spec_claim_C2_witness :
    parseConfig "3d0" = .ok ⟨"3d0", [3], ['d'], [0], ["3d"]⟩ ∧
      set_atomic_parameters ⟨"3d0", [3], ['d'], [0], ["3d"]⟩ [10, 20, 30, 40, 50, 60, 70] =
        .ok [("U(3d,3d)", 0), ("F2(3d,3d)", 0), ("F4(3d,3d)", 0), ("ζ(3d)", 0)] :=
  ⟨by decide, spec_claim_C2_amended [10, 20, 30, 40, 50, 60, 70] _ (by decide)⟩

/-! ### Helper lemmas: parsing a name built from a level, a shell letter and
an occupancy -/

theorem intercalate_one (a : String) : String.intercalate "," [a] = a := by
  simp [String.intercalate, String.intercalate.go]

theorem intercalate_two (a b : String) : String.intercalate "," [a, b] = a ++ "," ++ b := by
  simp [String.intercalate, String.intercalate.go]

theorem parse_built_single (l : Nat) (sh : Char) (cap m : Nat) (hl : l ≤ 9)
    (hcap : OCCUPANCIES sh = some cap) (hm : m ≤ cap) :
    parseConfig (Nat.repr l ++ String.mk [sh] ++ Nat.repr m) =
      .ok ⟨Nat.repr l ++ String.mk [sh] ++ Nat.repr m, [l], [sh], [m],
        [Nat.repr l ++ String.mk [sh]]⟩ := by
  obtain ⟨dl, hdl, hdig, hval⟩ := repr_level l hl
  have hm14 : m ≤ 14 := le_trans hm (cap_le14 sh cap hcap)
  obtain ⟨hne, hall, hdig2⟩ := repr_nat14 m hm14
  obtain ⟨hword, hcomma, hnl, hshd⟩ := shell_letter_props sh cap hcap
  have hdata : (Nat.repr l ++ String.mk [sh] ++ Nat.repr m).data =
      dl :: sh :: (Nat.repr m).data := by
    rw [str_data_append, str_data_append, hdl]
    rfl
  have hlast : (dl :: sh :: (Nat.repr m).data).getLast? ≠ some '\n' := by
    intro hnl'
    have hmem := getLast_mem_of_eq_some _ _ hnl'
    rcases hmem with _ | ⟨_, hmem⟩
    · simp at hdig
    · rcases hmem with _ | ⟨_, hmem⟩
      · exact hnl rfl
      · have := hall _ hmem
        simp at this
  have hS : pyFullMatch matchSingle (Nat.repr l ++ String.mk [sh] ++ Nat.repr m).data =
      some (dl, sh, (Nat.repr m).data) := by
    rw [hdata, pyFullMatch_eq_body _ _ hlast]
    exact matchSingle_build dl sh _ hdig hword hne hall
  have hD : pyFullMatch matchDouble (Nat.repr l ++ String.mk [sh] ++ Nat.repr m).data =
      none := by
    cases hD : pyFullMatch matchDouble (Nat.repr l ++ String.mk [sh] ++ Nat.repr m).data with
    | none => rfl
    | some x =>
      exfalso
      have hc := pyDouble_some_comma _ x hD
      rw [hdata] at hc
      rcases hc with _ | ⟨_, hc⟩
      · simp at hdig
      · rcases hc with _ | ⟨_, hc⟩
        · exact hcomma rfl
        · have := hall _ hc
          simp at this
  unfold parseConfig
  rw [hD, hS]
  simp only [gt_iff_lt, hcap, hval, hdig2]
  rw [if_neg (by omega)]

theorem parse_built_double (l1 : Nat) (sh1 : Char) (cap1 m1 : Nat) (l2 : Nat) (sh2 : Char)
    (cap2 m2 : Nat) (hl1 : l1 ≤ 9) (hcap1 : OCCUPANCIES sh1 = some cap1) (hm1 : m1 ≤ cap1)
    (hl2 : l2 ≤ 9) (hcap2 : OCCUPANCIES sh2 = some cap2) (hm2 : m2 ≤ cap2) :
    parseConfig (Nat.repr l1 ++ String.mk [sh1] ++ Nat.repr m1 ++ "," ++
        Nat.repr l2 ++ String.mk [sh2] ++ Nat.repr m2) =
      .ok ⟨Nat.repr l1 ++ String.mk [sh1] ++ Nat.repr m1 ++ "," ++
          Nat.repr l2 ++ String.mk [sh2] ++ Nat.repr m2, [l1, l2], [sh1, sh2], [m1, m2],
        [Nat.repr l1 ++ String.mk [sh1], Nat.repr l2 ++ String.mk [sh2]]⟩ := by
  obtain ⟨dl1, hdl1, hdig1, hval1⟩ := repr_level l1 hl1
  obtain ⟨dl2, hdl2, hdig2, hval2⟩ := repr_level l2 hl2
  have hm14a : m1 ≤ 14 := le_trans hm1 (cap_le14 sh1 cap1 hcap1)
  have hm14b : m2 ≤ 14 := le_trans hm2 (cap_le14 sh2 cap2 hcap2)
  obtain ⟨hne1, hall1, hdigs1⟩ := repr_nat14 m1 hm14a
  obtain ⟨hne2, hall2, hdigs2⟩ := repr_nat14 m2 hm14b
  obtain ⟨hword1, hcomma1, hnl1, hshd1⟩ := shell_letter_props sh1 cap1 hcap1
  obtain ⟨hword2, hcomma2, hnl2, hshd2⟩ := shell_letter_props sh2 cap2 hcap2
  have hdata : (Nat.repr l1 ++ String.mk [sh1] ++ Nat.repr m1 ++ "," ++
      Nat.repr l2 ++ String.mk [sh2] ++ Nat.repr m2).data =
      dl1 :: sh1 :: ((Nat.repr m1).data ++ ',' ::
        (dl2 :: sh2 :: (Nat.repr m2).data)) := by
    simp [str_data_append, hdl1, hdl2]
  have hcommamem : ',' ∈ (Nat.repr l1 ++ String.mk [sh1] ++ Nat.repr m1 ++ "," ++
      Nat.repr l2 ++ String.mk [sh2] ++ Nat.repr m2).data := by
    rw [hdata]
    simp
  have hlast : (dl1 :: sh1 :: ((Nat.repr m1).data ++ ',' ::
      (dl2 :: sh2 :: (Nat.repr m2).data))).getLast? ≠ some '\n' := by
    intro hnl'
    have hmem := getLast_mem_of_eq_some _ _ hnl'
    rcases hmem with _ | ⟨_, hmem⟩
    · simp at hdig1
    · rcases hmem with _ | ⟨_, hmem⟩
      · exact hnl1 rfl
      · rcases List.mem_append.mp hmem with hm' | hm'
        · have := hall1 _ hm'
          simp at this
        · rcases hm' with _ | ⟨_, hm'⟩
          · rcases hm' with _ | ⟨_, hm'⟩
            · simp at hdig2
            · rcases hm' with _ | ⟨_, hm'⟩
              · exact hnl2 rfl
              · have := hall2 _ hm'
                simp at this
  have hD : pyFullMatch matchDouble (Nat.repr l1 ++ String.mk [sh1] ++ Nat.repr m1 ++ "," ++
      Nat.repr l2 ++ String.mk [sh2] ++ Nat.repr m2).data =
      some ((dl1, sh1, (Nat.repr m1).data), (dl2, sh2, (Nat.repr m2).data)) := by
    rw [hdata, pyFullMatch_eq_body _ _ hlast]
    exact matchDouble_build dl1 sh1 _ dl2 sh2 _ hdig1 hword1 hne1 hall1 hdig2 hword2
      hne2 hall2
  have hS : pyFullMatch matchSingle (Nat.repr l1 ++ String.mk [sh1] ++ Nat.repr m1 ++ "," ++
      Nat.repr l2 ++ String.mk [sh2] ++ Nat.repr m2).data = none :=
    pySingle_none_of_comma _ hcommamem
  unfold parseConfig
  rw [hD, hS]
  simp only [gt_iff_lt, hcap1, hcap2, hval1, hval2, hdigs1, hdigs2]
  rw [if_neg (by omega), if_neg (by omega)]

theorem from_subshells_single (l : Nat) (sh : Char) (cap m : Nat) (hl : l ≤ 9)
    (hcap : OCCUPANCIES sh = some cap) (hm : m ≤ cap) :
    from_subshells_and_occupancies [Nat.repr l ++ String.mk [sh]] [(m : Int)] =
      .ok ⟨Nat.repr l ++ String.mk [sh] ++ Nat.repr m, [l], [sh], [m],
        [Nat.repr l ++ String.mk [sh]]⟩ := by
  unfold from_subshells_and_occupancies
  have hzip : List.zipWith (fun ss occ => ss ++ Int.repr occ)
      [Nat.repr l ++ String.mk [sh]] [(m : Int)] =
      [Nat.repr l ++ String.mk [sh] ++ Int.repr (m : Int)] := rfl
  have hrepr : Int.repr (m : Int) = Nat.repr m := rfl
  rw [hzip, intercalate_one, hrepr]
  exact parse_built_single l sh cap m hl hcap hm

theorem from_subshells_double (l1 : Nat) (sh1 : Char) (cap1 m1 : Nat) (l2 : Nat) (sh2 : Char)
    (cap2 m2 : Nat) (hl1 : l1 ≤ 9) (hcap1 : OCCUPANCIES sh1 = some cap1) (hm1 : m1 ≤ cap1)
    (hl2 : l2 ≤ 9) (hcap2 : OCCUPANCIES sh2 = some cap2) (hm2 : m2 ≤ cap2) :
    from_subshells_and_occupancies
        [Nat.repr l1 ++ String.mk [sh1], Nat.repr l2 ++ String.mk [sh2]]
        [(m1 : Int), (m2 : Int)] =
      .ok ⟨Nat.repr l1 ++ String.mk [sh1] ++ Nat.repr m1 ++ "," ++
          Nat.repr l2 ++ String.mk [sh2] ++ Nat.repr m2, [l1, l2], [sh1, sh2], [m1, m2],
        [Nat.repr l1 ++ String.mk [sh1], Nat.repr l2 ++ String.mk [sh2]]⟩ := by
  unfold from_subshells_and_occupancies
  have hzip : List.zipWith (fun ss occ => ss ++ Int.repr occ)
      [Nat.repr l1 ++ String.mk [sh1], Nat.repr l2 ++ String.mk [sh2]]
      [(m1 : Int), (m2 : Int)] =
      [Nat.repr l1 ++ String.mk [sh1] ++ Int.repr (m1 : Int),
        Nat.repr l2 ++ String.mk [sh2] ++ Int.repr (m2 : Int)] := rfl
  have hrepr1 : Int.repr (m1 : Int) = Nat.repr m1 := rfl
  have hrepr2 : Int.repr (m2 : Int) = Nat.repr m2 := rfl
  rw [hzip, intercalate_two, hrepr1, hrepr2]
  rw [← String.append_assoc, ← String.append_assoc]
  exact parse_built_double l1 sh1 cap1 m1 l2 sh2 cap2 m2 hl1 hcap1 hm1 hl2 hcap2 hm2

/-- C7 counterexample: for subshells `["3d"]` and occupancies `[5]` the code
builds the plain-decimal name "3d5", while the claimed zero-padded rendering
(`"{subshell}{occupancy:02d}"`) would build "3d05"; the two resulting
configurations differ. -/
theorem spec_claim_C7_counterexample :
    from_subshells_and_occupancies ["3d"] [5] = .ok ⟨"3d5", [3], ['d'], [5], ["3d"]⟩ ∧
      from_subshells_and_occupancies_claim ["3d"] [5] =
        .ok ⟨"3d05", [3], ['d'], [5], ["3d"]⟩ ∧
      from_subshells_and_occupancies ["3d"] [5] ≠
        from_subshells_and_occupancies_claim ["3d"] [5] := by decide

/-- C7 (amended): `from_subshells_and_occupancies` renders each pair as the
subshell label followed by the occupancy in PLAIN decimal (no zero-padding),
joins the pieces with commas and parses the result: for one or two
well-formed subshell labels with in-range occupancies the constructed
configuration round-trips the labels and occupancies, its name showing the
unpadded decimal. -/
theorem spec_claim_C7_amended :
    (∀ (l : Nat) (sh : Char) (cap m : Nat), l ≤ 9 → OCCUPANCIES sh = some cap → m ≤ cap →
      from_subshells_and_occupancies [Nat.repr l ++ String.mk [sh]] [(m : Int)] =
        .ok ⟨Nat.repr l ++ String.mk [sh] ++ Nat.repr m, [l], [sh], [m],
          [Nat.repr l ++ String.mk [sh]]⟩) ∧
    (∀ (l1 : Nat) (sh1 : Char) (cap1 m1 : Nat) (l2 : Nat) (sh2 : Char) (cap2 m2 : Nat),
      l1 ≤ 9 → OCCUPANCIES sh1 = some cap1 → m1 ≤ cap1 →
      l2 ≤ 9 → OCCUPANCIES sh2 = some cap2 → m2 ≤ cap2 →
      from_subshells_and_occupancies
          [Nat.repr l1 ++ String.mk [sh1], Nat.repr l2 ++ String.mk [sh2]]
          [(m1 : Int), (m2 : Int)] =
        .ok ⟨Nat.repr l1 ++ String.mk [sh1] ++ Nat.repr m1 ++ "," ++
            Nat.repr l2 ++ String.mk [sh2] ++ Nat.repr m2, [l1, l2], [sh1, sh2], [m1, m2],
          [Nat.repr l1 ++ String.mk [sh1], Nat.repr l2 ++ String.mk [sh2]]⟩) :=
  ⟨fun l sh cap m hl hcap hm => from_subshells_single l sh cap m hl hcap hm,
    fun l1 sh1 cap1 m1 l2 sh2 cap2 m2 hl1 hcap1 hm1 hl2 hcap2 hm2 =>
      from_subshells_double l1 sh1 cap1 m1 l2 sh2 cap2 m2 hl1 hcap1 hm1 hl2 hcap2 hm2⟩

theorem spec_claim_C7_witness :
    (3 : Nat) ≤ 9 ∧ OCCUPANCIES 'd' = some 10 ∧ (5 : Nat) ≤ 10 ∧
      from_subshells_and_occupancies [Nat.repr 3 ++ String.mk ['d']] [((5 : Nat) : Int)] =
        .ok ⟨Nat.repr 3 ++ String.mk ['d'] ++ Nat.repr 5, [3], ['d'], [5],
          [Nat.repr 3 ++ String.mk ['d']]⟩ :=
  ⟨by decide, by decide, by decide,
    spec_claim_C7_amended.1 3 'd' 10 5 (by decide) (by decide) (by decide)⟩

/-- C10: `initial_configuration` returns the configuration itself when it
has a single shell; for a two-shell (excited) configuration it returns a
fresh single-shell configuration on the valence subshell whose occupancy is
the valence occupancy decremented by one and clamped below at 0 (natural
subtraction expresses exactly that clamp). -/
theorem spec_claim_C10 (c : Configuration) (h : validConfig c = true) :
    (c.shells.length = 1 → initial_configuration c = .ok c) ∧
    (∀ l1 sh1 o1 ss1 l2 sh2 o2 ss2, c.levels = [l1, l2] → c.shells = [sh1, sh2] →
      c.occupancies = [o1, o2] → c.subshells = [ss1, ss2] →
      initial_configuration c =
        .ok ⟨ss2 ++ Nat.repr (o2 - 1), [l2], [sh2], [o2 - 1], [ss2]⟩) := by
  constructor
  · intro hlen
    have hex : is_excited c = false := by
      simp [is_excited, hlen]
    unfold initial_configuration
    rw [hex]
    simp
  · intro l1 sh1 o1 ss1 l2 sh2 o2 ss2 hl hs ho hss
    have hvalid2 : validTriple l2 sh2 o2 ss2 = true := by
      unfold validConfig at h
      rw [hl, hs, ho, hss] at h
      simp only [Bool.and_eq_true] at h
      exact h.2
    unfold validTriple at hvalid2
    simp only [Bool.and_eq_true, decide_eq_true_eq, beq_iff_eq] at hvalid2
    obtain ⟨⟨hl2, hcapm⟩, hss2⟩ := hvalid2
    cases hcap : OCCUPANCIES sh2 with
    | none => rw [hcap] at hcapm; exact absurd hcapm (by simp)
    | some cap =>
      rw [hcap] at hcapm
      simp only [decide_eq_true_eq] at hcapm
      have hex : is_excited c = true := by
        simp [is_excited, hs]
      unfold initial_configuration
      rw [hex]
      simp only [if_true]
      rw [hss, ho]
      simp only [List.get?]
      have hclamp : (if (o2 : Int) - 1 < 0 then 0 else (o2 : Int) - 1) =
          ((o2 - 1 : Nat) : Int) := by
        split_ifs with hneg <;> omega
      rw [hclamp, hss2]
      have hm' : o2 - 1 ≤ cap := by omega
      exact from_subshells_single l2 sh2 cap (o2 - 1) hl2 hcap hm'

theorem spec_claim_C10_witness :
    validConfig ⟨"1s1,3d6", [1, 3], ['s', 'd'], [1, 6], ["1s", "3d"]⟩ = true ∧
      initial_configuration ⟨"1s1,3d6", [1, 3], ['s', 'd'], [1, 6], ["1s", "3d"]⟩ =
        .ok ⟨"3d" ++ Nat.repr (6 - 1), [3], ['d'], [6 - 1], ["3d"]⟩ :=
  ⟨by decide,
    (spec_claim_C10 ⟨"1s1,3d6", [1, 3], ['s', 'd'], [1, 6], ["1s", "3d"]⟩ (by decide)).2
      1 's' 1 "1s" 3 'd' 6 "3d" rfl rfl rfl rfl⟩

/-! ### Helper lemmas: normalization -/

theorem renderPair_eq (c : Configuration) (ss : String) (occ : Nat) :
    renderPair c ss occ = specLabelAmended c ss ++ pad2 occ ++ " " := by
  unfold renderPair specLabelAmended
  split_ifs with h1 h2
  · show strToUpper "4f14 5d" ++ pad2 occ ++ " " = "4F14 5D" ++ pad2 occ ++ " "
    rw [show strToUpper "4f14 5d" = "4F14 5D" from by decide]
  · show strToUpper "3d10 4f" ++ pad2 occ ++ " " = "3D10 4F" ++ pad2 occ ++ " "
    rw [show strToUpper "3d10 4f" = "3D10 4F" from by decide]
  · rfl

theorem lastNonWs_append (a b : String) (h : lastNonWs b = true) :
    lastNonWs (a ++ b) = true := by
  unfold lastNonWs at h ⊢
  rw [str_data_append, List.reverse_append]
  cases hb : b.data.reverse with
  | nil => rw [hb] at h; exact absurd h (by simp)
  | cons ch rest =>
    rw [hb] at h
    simp only [List.cons_append]
    exact h

theorem pad2_lastNonWs (occ : Nat) (h : occ ≤ 14) : lastNonWs (pad2 occ) = true := by
  interval_cases occ <;> decide

theorem rstrip_append_space (s : String) (h : lastNonWs s = true) :
    rstrip (s ++ " ") = s := by
  unfold rstrip lastNonWs at *
  rw [str_data_append]
  cases hb : s.data.reverse with
  | nil => rw [hb] at h; exact absurd h (by simp)
  | cons ch rest =>
    rw [hb] at h
    simp only [Bool.not_eq_true'] at h
    have hrev : (s.data ++ " ".data).reverse = ' ' :: ch :: rest := by
      rw [List.reverse_append, hb]
      rfl
    rw [hrev]
    have hsp : List.dropWhile Char.isWhitespace (' ' :: ch :: rest) =
        List.dropWhile Char.isWhitespace (ch :: rest) := by
      rw [List.dropWhile_cons, if_pos (by decide : (' ').isWhitespace = true)]
    have hch : List.dropWhile Char.isWhitespace (ch :: rest) = ch :: rest := by
      rw [List.dropWhile_cons, if_neg]
      simp [h]
    rw [hsp, hch, ← hb, List.reverse_reverse]

theorem validTriple_occ14 (l : Nat) (sh : Char) (occ : Nat) (ss : String)
    (h : validTriple l sh occ ss = true) : occ ≤ 14 := by
  unfold validTriple at h
  simp only [Bool.and_eq_true, decide_eq_true_eq] at h
  obtain ⟨⟨-, hcapm⟩, -⟩ := h
  cases hcap : OCCUPANCIES sh with
  | none => rw [hcap] at hcapm; exact absurd hcapm (by simp)
  | some cap =>
    rw [hcap] at hcapm
    simp only [decide_eq_true_eq] at hcapm
    exact le_trans hcapm (cap_le14 sh cap hcap)

theorem normalize_eq_amended (c : Configuration) (h : validConfig c = true) :
    normalize_configuration_name c = normalizeAmended c := by
  unfold validConfig at h
  split at h
  · rename_i l sh occ ss hlv hsh hoc hss
    have hocc14 : occ ≤ 14 := validTriple_occ14 l sh occ ss h
    have hfold : (c.subshells.zip c.occupancies).foldl
        (fun acc p => acc ++ renderPair c p.1 p.2) "" = renderPair c ss occ := by
      rw [hss, hoc]
      rfl
    have hmap : (c.subshells.zip c.occupancies).map
        (fun p => specLabelAmended c p.1 ++ pad2 p.2) =
        [specLabelAmended c ss ++ pad2 occ] := by
      rw [hss, hoc]
      rfl
    unfold normalize_configuration_name normalizeAmended
    rw [hfold, hmap, renderPair_eq]
    show rstrip ((specLabelAmended c ss ++ pad2 occ) ++ " ") =
      joinSpace [specLabelAmended c ss ++ pad2 occ]
    rw [rstrip_append_space _ (lastNonWs_append _ _ (pad2_lastNonWs occ hocc14))]
    rfl
  · rename_i l1 l2 sh1 sh2 o1 o2 ss1 ss2 hlv hsh hoc hss
    simp only [Bool.and_eq_true] at h
    have h14a : o1 ≤ 14 := validTriple_occ14 l1 sh1 o1 ss1 h.1
    have h14b : o2 ≤ 14 := validTriple_occ14 l2 sh2 o2 ss2 h.2
    have hfold : (c.subshells.zip c.occupancies).foldl
        (fun acc p => acc ++ renderPair c p.1 p.2) "" =
        renderPair c ss1 o1 ++ renderPair c ss2 o2 := by
      rw [hss, hoc]
      rfl
    have hmap : (c.subshells.zip c.occupancies).map
        (fun p => specLabelAmended c p.1 ++ pad2 p.2) =
        [specLabelAmended c ss1 ++ pad2 o1, specLabelAmended c ss2 ++ pad2 o2] := by
      rw [hss, hoc]
      rfl
    unfold normalize_configuration_name normalizeAmended
    rw [hfold, hmap, renderPair_eq, renderPair_eq, ← String.append_assoc]
    rw [rstrip_append_space _
      (lastNonWs_append _ _ (lastNonWs_append _ _ (pad2_lastNonWs o2 h14b)))]
    rfl
  · exact absurd h (by decide)

theorem subStrAux_of_prefix (pat l : List Char) (h : pat.isPrefixOf l = true) :
    subStrAux pat l = true := by
  cases l with
  | nil =>
    cases pat with
    | nil => rfl
    | cons a t => simp [List.isPrefixOf] at h
  | cons c rest =>
    unfold subStrAux
    rw [h]
    rfl

theorem subStrAux_append_left (pat l1 l2 : List Char) (h : subStrAux pat l2 = true) :
    subStrAux pat (l1 ++ l2) = true := by
  induction l1 with
  | nil => simpa using h
  | cons c t ih =>
    show (pat.isPrefixOf (c :: (t ++ l2)) || subStrAux pat (t ++ l2)) = true
    rw [ih]
    simp

/-- C8 counterexample: the single-shell configuration "4f5" has no 5d
subshell, so the claim's rendering rule gives "4F05"; the code instead
substitutes the undocumented "3d10 4f" token and renders "3D10 4F05". -/
theorem spec_claim_C8_counterexample :
    parseConfig "4f5" = .ok ⟨"4f5", [4], ['f'], [5], ["4f"]⟩ ∧
      normalize_configuration_name ⟨"4f5", [4], ['f'], [5], ["4f"]⟩ = "3D10 4F05" ∧
      normalizeClaimC8 ⟨"4f5", [4], ['f'], [5], ["4f"]⟩ = "4F05" ∧
      normalize_configuration_name ⟨"4f5", [4], ['f'], [5], ["4f"]⟩ ≠
        normalizeClaimC8 ⟨"4f5", [4], ['f'], [5], ["4f"]⟩ := by decide

/-- C8 (amended): for every valid configuration,
`normalize_configuration_name` renders each (subshell, occupancy) pair as
an upper-cased label followed by the occupancy zero-padded to two digits,
space-joined, where the label is subject to TWO substitutions: "4F14 5D"
for a 5d subshell when no explicit 4f subshell is listed (as the claim
states), and additionally "3D10 4F" for a 4f subshell when the
configuration's name does not contain "3d". -/
theorem spec_claim_C8_amended (c : Configuration) (h : validConfig c = true) :
    normalize_configuration_name c = normalizeAmended c :=
  normalize_eq_amended c h

theorem spec_claim_C8_witness :
    validConfig ⟨"1s1,5d4", [1, 5], ['s', 'd'], [1, 4], ["1s", "5d"]⟩ = true ∧
      normalize_configuration_name ⟨"1s1,5d4", [1, 5], ['s', 'd'], [1, 4], ["1s", "5d"]⟩ =
        normalizeAmended ⟨"1s1,5d4", [1, 5], ['s', 'd'], [1, 4], ["1s", "5d"]⟩ ∧
      normalizeAmended ⟨"1s1,5d4", [1, 5], ['s', 'd'], [1, 4], ["1s", "5d"]⟩ =
        "1S01 4F14 5D04" :=
  ⟨by decide, spec_claim_C8_amended _ (by decide), by decide⟩

/-- C9: for every valid configuration listing a 4f subshell and whose name
does not contain the substring "3d", the second (undocumented) substitution
fires: the label rendered for the 4f subshell is "3d10 4f" (upper-cased
"3D10 4F"), the whole rendering follows the two-substitution rule, and the
token "3D10 4F" occurs in the normalized name. -/
theorem spec_claim_C9 (c : Configuration) (h : validConfig c = true)
    (h4f : c.subshells.contains "4f" = true) (h3d : strContains c.name "3d" = false) :
    specLabelAmended c "4f" = "3D10 4F" ∧
      normalize_configuration_name c = normalizeAmended c ∧
      strContains (normalize_configuration_name c) "3D10 4F" = true := by
  have hlabel : specLabelAmended c "4f" = "3D10 4F" := by
    unfold specLabelAmended
    rw [show strContains "4f" "5d" = false from by decide]
    rw [show strContains "4f" "4f" = true from by decide, h3d]
    simp
  refine ⟨hlabel, normalize_eq_amended c h, ?_⟩
  rw [normalize_eq_amended c h]
  unfold validConfig at h
  split at h
  · rename_i l sh occ ss hlv hsh hoc hss
    rw [hss] at h4f
    have hss4f : "4f" = ss := by simpa using h4f
    subst hss4f
    unfold normalizeAmended
    rw [hss, hoc]
    show strContains (joinSpace [specLabelAmended c "4f" ++ pad2 occ]) "3D10 4F" = true
    rw [hlabel]
    show strContains ("3D10 4F" ++ pad2 occ) "3D10 4F" = true
    unfold strContains
    rw [str_data_append]
    apply subStrAux_of_prefix
    rw [List.isPrefixOf_iff_prefix]
    exact List.prefix_append _ _
  · rename_i l1 l2 sh1 sh2 o1 o2 ss1 ss2 hlv hsh hoc hss
    rw [hss] at h4f
    have hor : "4f" = ss1 ∨ "4f" = ss2 := by
      simpa using h4f
    unfold normalizeAmended
    rw [hss, hoc]
    rcases hor with rfl | rfl
    · rw [show List.map (fun p => specLabelAmended c p.1 ++ pad2 p.2)
          (List.zip ["4f", ss2] [o1, o2]) =
          [specLabelAmended c "4f" ++ pad2 o1, specLabelAmended c ss2 ++ pad2 o2] from rfl]
      rw [hlabel]
      show strContains (("3D10 4F" ++ pad2 o1) ++ " " ++
        (specLabelAmended c ss2 ++ pad2 o2)) "3D10 4F" = true
      unfold strContains
      rw [str_data_append, str_data_append, str_data_append]
      apply subStrAux_of_prefix
      rw [List.isPrefixOf_iff_prefix, List.append_assoc, List.append_assoc]
      exact List.prefix_append _ _
    · rw [show List.map (fun p => specLabelAmended c p.1 ++ pad2 p.2)
          (List.zip [ss1, "4f"] [o1, o2]) =
          [specLabelAmended c ss1 ++ pad2 o1, specLabelAmended c "4f" ++ pad2 o2] from rfl]
      rw [hlabel]
      show strContains ((specLabelAmended c ss1 ++ pad2 o1) ++ " " ++
        ("3D10 4F" ++ pad2 o2)) "3D10 4F" = true
      unfold strContains
      rw [str_data_append]
      apply subStrAux_append_left
      rw [str_data_append]
      apply subStrAux_of_prefix
      rw [List.isPrefixOf_iff_prefix]
      exact List.prefix_append _ _
  · exact absurd h (by decide)

theorem spec_claim_C9_witness :
    validConfig ⟨"4f5", [4], ['f'], [5], ["4f"]⟩ = true ∧
      (⟨"4f5", [4], ['f'], [5], ["4f"]⟩ : Configuration).subshells.contains "4f" = true ∧
      strContains (⟨"4f5", [4], ['f'], [5], ["4f"]⟩ : Configuration).name "3d" = false ∧
      strContains
        (normalize_configuration_name ⟨"4f5", [4], ['f'], [5], ["4f"]⟩) "3D10 4F" = true :=
  ⟨by decide, by decide, by decide,
    (spec_claim_C9 ⟨"4f5", [4], ['f'], [5], ["4f"]⟩ (by decide) (by decide) (by decide)).2.2⟩

/-- C4 counterexample: "1x2" matches the single-shell grammar (digit, word
character, digits) and no occupancy/capacity bound is violated — the shell
letter 'x' simply has no capacity — yet construction neither succeeds nor
raises a validation error: the capacity lookup raises a `KeyError`. -/
theorem spec_claim_C4_counterexample :
    grammarSingle "1x2".data ∧ parseConfig "1x2" = .error .keyError ∧
      isValidationError (parseConfig "1x2") = false :=
  ⟨⟨'1', 'x', ['2'], by decide, by decide, by decide, by decide, by decide⟩,
    by decide, by decide⟩

/-- C4 (amended): provided every captured shell letter has a capacity entry
(is one of s, p, d, f), constructing a `Configuration` succeeds exactly
when the input matches one of the two grammars (with the `$` anchor
tolerating a single trailing newline) and every captured occupancy is
within its shell's capacity, and it raises a validation error exactly when
the input matches neither grammar or some occupancy exceeds its capacity.
(A matched string with a shell letter outside s, p, d, f instead raises a
lookup error, per the counterexample.) -/
theorem spec_claim_C4_amended (s : String) (hletters : shellLettersOk s = true) :
    ((∃ c, parseConfig s = .ok c) ↔ (matchesGrammars s ∧ occupanciesOk s = true)) ∧
    (isValidationError (parseConfig s) = true ↔
      (¬matchesGrammars s ∨ occupanciesOk s = false)) := by
  cases hD : pyFullMatch matchDouble s.data with
  | some xD =>
    obtain ⟨⟨d1, w1, r1⟩, d2, w2, r2⟩ := xD
    have hS : pyFullMatch matchSingle s.data = none := py_disjoint _ _ hD
    have hmg : matchesGrammars s := Or.inl ((pyDouble_exists_iff s.data).mp ⟨_, hD⟩)
    have hpg : parsedGroups s = some [(d1, w1, r1), (d2, w2, r2)] := by
      unfold parsedGroups
      rw [hD, hS]
    unfold shellLettersOk at hletters
    rw [hpg] at hletters
    simp only [List.all_cons, List.all_nil, Bool.and_true, Bool.and_eq_true] at hletters
    obtain ⟨hw1ok, hw2ok⟩ := hletters
    obtain ⟨cap1, hcap1⟩ := Option.isSome_iff_exists.mp hw1ok
    obtain ⟨cap2, hcap2⟩ := Option.isSome_iff_exists.mp hw2ok
    have hocc : occupanciesOk s =
        (decide (digitsToNat r1 ≤ cap1) && decide (digitsToNat r2 ≤ cap2)) := by
      unfold occupanciesOk
      rw [hpg]
      simp [hcap1, hcap2]
    have hparse : parseConfig s =
        (if cap2 < digitsToNat r2 then
          .error (.valueError "Wrong number of electrons in the valence shell.")
        else if cap1 < digitsToNat r1 then
          .error (.valueError "Wrong number of electrons in the core shell.")
        else .ok ⟨s, [digitsToNat [d1], digitsToNat [d2]], [w1, w2],
          [digitsToNat r1, digitsToNat r2],
          [Nat.repr (digitsToNat [d1]) ++ String.mk [w1],
            Nat.repr (digitsToNat [d2]) ++ String.mk [w2]]⟩) := by
      unfold parseConfig
      rw [hD, hS]
      simp only [gt_iff_lt, hcap1, hcap2]
    by_cases hv : digitsToNat r2 ≤ cap2
    · by_cases hc : digitsToNat r1 ≤ cap1
      · rw [hparse, if_neg (by omega), if_neg (by omega)]
        constructor
        · constructor
          · intro
            exact ⟨hmg, by rw [hocc]; simp [hv, hc]⟩
          · intro
            exact ⟨_, rfl⟩
        · constructor
          · intro habs
            exact absurd habs (by simp [isValidationError])
          · rintro (hno | hocc')
            · exact absurd hmg hno
            · rw [hocc] at hocc'
              simp [hv, hc] at hocc'
      · rw [hparse, if_neg (by omega), if_pos (by omega)]
        have hof : occupanciesOk s = false := by
          rw [hocc]
          simp [hc]
        constructor
        · constructor
          · rintro ⟨c, hcc⟩
            cases hcc
          · rintro ⟨-, ht⟩
            rw [hof] at ht
            cases ht
        · constructor
          · intro
            exact Or.inr hof
          · intro
            rfl
    · rw [hparse, if_pos (by omega)]
      have hof : occupanciesOk s = false := by
        rw [hocc]
        simp [hv]
      constructor
      · constructor
        · rintro ⟨c, hcc⟩
          cases hcc
        · rintro ⟨-, ht⟩
          rw [hof] at ht
          cases ht
      · constructor
        · intro
          exact Or.inr hof
        · intro
          rfl
  | none =>
    cases hS : pyFullMatch matchSingle s.data with
    | some xS =>
      obtain ⟨d, w, r⟩ := xS
      have hmg : matchesGrammars s := Or.inr ((pySingle_exists_iff s.data).mp ⟨_, hS⟩)
      have hpg : parsedGroups s = some [(d, w, r)] := by
        unfold parsedGroups
        rw [hD, hS]
      unfold shellLettersOk at hletters
      rw [hpg] at hletters
      simp only [List.all_cons, List.all_nil, Bool.and_true] at hletters
      obtain ⟨cap, hcap⟩ := Option.isSome_iff_exists.mp hletters
      have hocc : occupanciesOk s = decide (digitsToNat r ≤ cap) := by
        unfold occupanciesOk
        rw [hpg]
        simp [hcap]
      have hparse : parseConfig s =
          (if cap < digitsToNat r then
            .error (.valueError "Wrong number of electrons in the valence shell.")
          else .ok ⟨s, [digitsToNat [d]], [w], [digitsToNat r],
            [Nat.repr (digitsToNat [d]) ++ String.mk [w]]⟩) := by
        unfold parseConfig
        rw [hD, hS]
        simp only [gt_iff_lt, hcap]
      by_cases hv : digitsToNat r ≤ cap
      · rw [hparse, if_neg (by omega)]
        constructor
        · constructor
          · intro
            exact ⟨hmg, by rw [hocc]; simp [hv]⟩
          · intro
            exact ⟨_, rfl⟩
        · constructor
          · intro habs
            exact absurd habs (by simp [isValidationError])
          · rintro (hno | hocc')
            · exact absurd hmg hno
            · rw [hocc] at hocc'
              simp [hv] at hocc'
      · rw [hparse, if_pos (by omega)]
        have hof : occupanciesOk s = false := by
          rw [hocc]
          simp [hv]
        constructor
        · constructor
          · rintro ⟨c, hcc⟩
            cases hcc
          · rintro ⟨-, ht⟩
            rw [hof] at ht
            cases ht
        · constructor
          · intro
            exact Or.inr hof
          · intro
            rfl
    | none =>
      have hparse : parseConfig s = .error (.valueError "Invalid configuration string.") := by
        unfold parseConfig
        rw [hD, hS]
      have hmg : ¬matchesGrammars s := by
        rintro (hg | hg)
        · obtain ⟨x, hx⟩ := (pyDouble_exists_iff s.data).mpr hg
          rw [hx] at hD
          cases hD
        · obtain ⟨x, hx⟩ := (pySingle_exists_iff s.data).mpr hg
          rw [hx] at hS
          cases hS
      rw [hparse]
      constructor
      · constructor
        · rintro ⟨c, hcc⟩
          cases hcc
        · rintro ⟨hg, -⟩
          exact absurd hg hmg
      · constructor
        · intro
          exact Or.inl hmg
        · intro
          rfl

theorem spec_claim_C4_witness :
    shellLettersOk "3d11" = true ∧
      isValidationError (parseConfig "3d11") = true :=
  ⟨by decide, (spec_claim_C4_amended "3d11" (by decide)).2.mpr (Or.inr (by decide))⟩
